import Mathlib

/-!
Shallow embedding of the parsec measurement system: the agent's HTTP
retrieve handler (`Server.retrieve` in `pkg/server/server_retrieve.go`)
and the coordinator's scheduling loop (`ScheduleAction`).  External
collaborators (the DHT, the indexer, the database, the clock) appear as
oracle inputs; everything the repository's own code computes is embedded
faithfully.
-/

namespace Parsec

/-! ## Routing tags

Go `config.Routing` is a string-typed tag carried in the request body.
The handler's `switch` matches `config.RoutingIPNI` and sends every
other value to the `default` (DHT) branch. -/

abbrev Routing := String

def RoutingIPNI : Routing := "IPNI"

def RoutingDHT : Routing := "DHT"

/-! ## Provider identities

`FindProvidersAsync` delivers a `peer.AddrInfo`; receiving from a closed
channel yields the zero value, whose `ID` is the empty byte string.
`peer.ID.Validate` (libp2p) returns `ErrEmptyPeerID` exactly when the
identity is empty, and a multihash parse error for a non-empty identity
that is not a valid multihash; validity of the byte string is carried as
a field since multihash parsing is outside the repository. -/

structure ProviderID where
  bytes : String
  validMultihash : Bool
deriving Repr, DecidableEq

/-- The zero value of `peer.AddrInfo.ID`: empty, and not a valid multihash. -/
def zeroProviderID : ProviderID := ⟨"", false⟩

inductive ValidateErr where
  | ok
  | emptyPeerID
  | parseErr
deriving Repr, DecidableEq

/-- `peer.ID.Validate`: empty identity gives `ErrEmptyPeerID`; a non-empty
identity gives a parse error or ok depending on multihash validity. -/
def validate (p : ProviderID) : ValidateErr :=
  if p.bytes = "" then .emptyPeerID
  else if p.validMultihash then .ok else .parseErr

/-- The handler's check `errors.Is(provider.ID.Validate(), peer.ErrEmptyPeerID)`. -/
def isEmptyPeerErr (p : ProviderID) : Bool :=
  validate p = ValidateErr.emptyPeerID

/-! ## Host state (libp2p host, peerstore)

State touched by `s.host.Network().ClosePeer`, `s.host.Peerstore().RemovePeer`
and `s.host.Peerstore().ClearAddrs`. -/

structure HostState where
  conns : List String
  peers : List String
  addrs : List (String × List String)
deriving Repr, DecidableEq

def closePeer (st : HostState) (p : String) : HostState :=
  { st with conns := st.conns.filter (· ≠ p) }

def removePeer (st : HostState) (p : String) : HostState :=
  { st with peers := st.peers.filter (· ≠ p) }

def clearAddrs (st : HostState) (p : String) : HostState :=
  { st with addrs := st.addrs.filter (fun q => q.1 ≠ p) }

/-! ## The retrieval response -/

/-- Go `RetrievalResponse`; `Duration` is a `time.Duration` (signed). -/
structure RetrievalResponse where
  CID : String
  Duration : Int
  RoutingTableSize : Int
  Error : String
deriving Repr, DecidableEq

/-! ## Oracles for the two routing calls

`t0`/`t1` are monotonic clock readings around the routing call
(`start := time.Now()` / `time.Since(start)`). -/

structure DHTOracle where
  /-- The value received from `<-s.host.DHT.FindProvidersAsync(ctx, c, 1)`;
  the zero value when the channel closes without a result. -/
  provider : ProviderID
  t0 : Nat
  t1 : Nat

structure IndexerOracle where
  /-- `s.host.IndexerLookup(ctx, c)`: an error string, or the list of
  `MultihashResults`. -/
  result : Except String (List String)
  t0 : Nat
  t1 : Nat

/-- The `default` (DHT) branch of the handler's switch. -/
def retrieveDHT (c : String) (rtSize : Int) (o : DHTOracle) (st : HostState) :
    RetrievalResponse × HostState :=
  let dur : Int := (o.t1 : Int) - (o.t0 : Int)
  if isEmptyPeerErr o.provider then
    ({ CID := c, Duration := dur, RoutingTableSize := rtSize, Error := "not found" }, st)
  else
    ({ CID := c, Duration := dur, RoutingTableSize := rtSize, Error := "" },
     clearAddrs (removePeer (closePeer st o.provider.bytes) o.provider.bytes)
       o.provider.bytes)

/-- The `config.RoutingIPNI` branch of the handler's switch. -/
def retrieveIndexer (c : String) (rtSize : Int) (o : IndexerOracle) (st : HostState) :
    RetrievalResponse × HostState :=
  let dur : Int := (o.t1 : Int) - (o.t0 : Int)
  match o.result with
  | .error e =>
      ({ CID := c, Duration := dur, RoutingTableSize := rtSize, Error := e }, st)
  | .ok rs =>
      ({ CID := c, Duration := dur, RoutingTableSize := rtSize,
         Error := if rs.length = 0 then "not found" else "" }, st)

/-- The switch on `rr.Routing`: `case config.RoutingIPNI`, `default` = DHT. -/
def retrieveSwitch (c : String) (rtSize : Int) (routing : Routing)
    (dhtO : DHTOracle) (idxO : IndexerOracle) (st : HostState) :
    RetrievalResponse × HostState :=
  if routing = RoutingIPNI then retrieveIndexer c rtSize idxO st
  else retrieveDHT c rtSize dhtO st

/-- Outcome of the HTTP handler: a marshalled response written with a
success status, or an early `WriteHeader` rejection. (`json.Marshal` of
`RetrievalResponse` cannot fail, so lines 92–103 always take the normal
write path.) -/
inductive HandlerResult where
  | ok (resp : RetrievalResponse) (st : HostState)
  | httpError (code : Nat) (st : HostState)
deriving Repr, DecidableEq

/-- `Server.retrieve`: body read (500 on failure), JSON unmarshal (400),
`cid.Decode` (400), then the routing switch.  `readErr` models an
`io.ReadAll` failure, `parsed` the unmarshalled request body, `cidRes`
the decoded cid path parameter. -/
def retrieveHandler (readErr : Bool) (parsed : Option Routing)
    (cidRes : Option String) (rtSize : Int)
    (dhtO : DHTOracle) (idxO : IndexerOracle) (st : HostState) : HandlerResult :=
  if readErr then .httpError 500 st
  else
    match parsed with
    | none => .httpError 400 st
    | some routing =>
      match cidRes with
      | none => .httpError 400 st
      | some c =>
        let p := retrieveSwitch c rtSize routing dhtO idxO st
        .ok p.1 p.2

/-! ## Coordinator: `ScheduleAction` (`cmd` scheduler)

The main loop, after a successful readiness barrier.  One `RoundOracle`
carries the external results one loop iteration consumes:
`util.NewRandomContent`, `nodes[provNode].Provide`, `dbc.InsertProvide`,
each `node.Retrieve`, and each `dbc.InsertRetrieval`.  The errgroup
fan-out over the `len(nodes)-1` retrievals is sequentialised in index
order; the first failing task's error is the one `errg.Wait` returns. -/

inductive Event where
  | provideStart (node : Nat)
  | provideDone (node : Nat)
  | retrieveStart (node : Nat)
  | retrieveDone (node : Nat)
deriving Repr, DecidableEq

structure RoundOracle where
  /-- `util.NewRandomContent()`: the fresh content's CID, or an error. -/
  content : Except String String
  /-- `nodes[provNode].Provide(...)`: transport result (record opaque). -/
  provideRes : Except String Unit
  /-- `dbc.InsertProvide(...)` result (only consulted when a db handle exists). -/
  insertProvideRes : Except String Unit
  /-- `node.Retrieve(...)` for the node at a given fleet index. -/
  retrieveRes : Nat → Except String RetrievalResponse
  /-- `dbc.InsertRetrieval(...)` for the node at a given fleet index. -/
  insertRetrievalRes : Nat → Except String Unit

/-- How one loop iteration ends: continue with the advanced provider
index, return a non-nil error, or panic (nil pointer dereference). -/
inductive RoundExit where
  | cont (nextProv : Nat)
  | errReturn (msg : String)
  | panicked
deriving Repr, DecidableEq

/-- Process exit status implied by a round exit: an error return makes
`main` exit non-zero; a runtime panic exits non-zero as well. -/
def RoundExit.exitCode : RoundExit → Nat
  | .cont _ => 0
  | .errReturn _ => 1
  | .panicked => 2

structure RoundResult where
  exit : RoundExit
  trace : List Event
  persistCalls : Nat
  provideRecords : Nat
  retrievalRecords : Nat
deriving Repr, DecidableEq

/-- Output of the retrieval fan-out (`errg.Go` loop plus `errg.Wait`). -/
structure RetrOut where
  evs : List Event
  persistCalls : Nat
  records : Nat
  firstErr : Option String
deriving Repr, DecidableEq

/-- The retrieval fan-out over offsets `i`; `retrNode := (provNode+i+1) % n`.
`dbc` is true when a database handle exists (`dbc != nil`). -/
def retrLoop (n prov : Nat) (dbc : Bool) (o : RoundOracle) : List Nat → RetrOut
  | [] => ⟨[], 0, 0, none⟩
  | i :: rest =>
    let retrNode := (prov + i + 1) % n
    match o.retrieveRes retrNode with
    | .error e => ⟨[.retrieveStart retrNode], 0, 0, some ("api retrieve: " ++ e)⟩
    | .ok _ =>
      if dbc then
        match o.insertRetrievalRes retrNode with
        | .error e =>
            ⟨[.retrieveStart retrNode, .retrieveDone retrNode], 1, 0,
             some ("insert retrieve: " ++ e)⟩
        | .ok _ =>
            let out := retrLoop n prov dbc o rest
            ⟨.retrieveStart retrNode :: .retrieveDone retrNode :: out.evs,
             1 + out.persistCalls, 1 + out.records, out.firstErr⟩
      else
        let out := retrLoop n prov dbc o rest
        ⟨.retrieveStart retrNode :: .retrieveDone retrNode :: out.evs,
         out.persistCalls, out.records, out.firstErr⟩

/-- `errg.Wait()` for the retrieval phase, then the circular advance
`provNode += 1; provNode %= len(nodes)`. -/
def exitOfRetr (n prov : Nat) : Option String → RoundExit
  | some e => .errReturn ("waitgroup retrieve: " ++ e)
  | none => .cont ((prov + 1) % n)

/-- One iteration of the `for` loop in `ScheduleAction`, for fleet size
`n`, provider index `prov`, dry-run flag `dry`, and the post-barrier
`dbNodes` slice (`none` = nil `*models.Node`).  On a Provide failure the
logging line reads `dbNodes[provNode].ID`, which panics when that slot
is nil. -/
def runRound (n prov : Nat) (dry : Bool) (dbNodes : List (Option Nat))
    (o : RoundOracle) : RoundResult :=
  match o.content with
  | .error e => ⟨.errReturn ("new random content: " ++ e), [], 0, 0, 0⟩
  | .ok _ =>
    match o.provideRes with
    | .error e =>
      match dbNodes.getD prov none with
      | none => ⟨.panicked, [.provideStart prov], 0, 0, 0⟩
      | some _ => ⟨.errReturn ("provide content: " ++ e), [.provideStart prov], 0, 0, 0⟩
    | .ok _ =>
      if dry then
        let out := retrLoop n prov false o (List.range (n - 1))
        ⟨exitOfRetr n prov out.firstErr,
         .provideStart prov :: .provideDone prov :: out.evs,
         out.persistCalls, 0, out.records⟩
      else
        match o.insertProvideRes with
        | .error e =>
            ⟨.errReturn ("insert provide: " ++ e),
             [.provideStart prov, .provideDone prov], 1, 0, 0⟩
        | .ok _ =>
            let out := retrLoop n prov true o (List.range (n - 1))
            ⟨exitOfRetr n prov out.firstErr,
             .provideStart prov :: .provideDone prov :: out.evs,
             1 + out.persistCalls, 1, out.records⟩

def retrStartIdx : Event → Option Nat
  | .retrieveStart i => some i
  | _ => none

def provStartIdx : Event → Option Nat
  | .provideStart i => some i
  | _ => none

/-- Fleet indices on which the round invoked `node.Retrieve`. -/
def retrieveCallsOf (r : RoundResult) : List Nat :=
  r.trace.filterMap retrStartIdx

/-- Fleet indices on which the round invoked `Provide`. -/
def provideCallsOf (r : RoundResult) : List Nat :=
  r.trace.filterMap provStartIdx

/-- How the whole loop ends: the cancellation check at the top of an
iteration fires (`return c.Context.Err()`), an error return, or a panic. -/
inductive LoopExit where
  | cancelled
  | errReturn (msg : String)
  | panicked
deriving Repr, DecidableEq

/-- The `for` loop of `ScheduleAction`: one oracle per iteration that
starts; the list running out models the cancellation signal being set at
the next top-of-loop check.  Returns the provider indices of the
completed rounds, the total persistence calls issued by the loop, and
the exit. -/
def runLoop (n : Nat) (dry : Bool) (dbNodes : List (Option Nat)) (prov : Nat) :
    List RoundOracle → List Nat × Nat × LoopExit
  | [] => ([], 0, .cancelled)
  | o :: os =>
    let r := runRound n prov dry dbNodes o
    match r.exit with
    | .cont next =>
      let rest := runLoop n dry dbNodes next os
      (prov :: rest.1, r.persistCalls + rest.2.1, rest.2.2)
    | .errReturn m => ([], r.persistCalls, .errReturn m)
    | .panicked => ([], r.persistCalls, .panicked)

/-- The `dbNodes` slice after a successful readiness barrier: with a db
handle every slot was filled by `InsertNode`; in dry-run (`dbc == nil`)
every goroutine returned before inserting, leaving every slot nil. -/
def mkDbNodes (dry : Bool) (n : Nat) : List (Option Nat) :=
  if dry then List.replicate n none else (List.range n).map some

/-- `ScheduleAction` after a successful startup: persistence calls made
before the loop (`InitRun` plus one `InsertNode` per node, all skipped
in dry-run), then the main loop from provider index 0. -/
def runSched (n : Nat) (dry : Bool) (os : List RoundOracle) :
    Nat × List Nat × LoopExit :=
  let setupCalls := if dry then 0 else 1 + n
  let res := runLoop n dry (mkDbNodes dry n) 0 os
  (setupCalls + res.2.1, res.1, res.2.2)

/-! ## Concrete fixtures used by witnesses and counterexamples -/

def st0 : HostState := ⟨["peerA"], ["peerA"], [("peerA", ["addrA"])]⟩

def dht0 : DHTOracle := ⟨zeroProviderID, 0, 5⟩

def idx0 : IndexerOracle := ⟨.ok ["mh1"], 0, 5⟩

def respFix : RetrievalResponse := ⟨"cid", 1, 0, ""⟩

/-- A round in which every external call succeeds. -/
def oGood : RoundOracle :=
  ⟨.ok "cid", .ok (), .ok (), fun _ => .ok respFix, fun _ => .ok ()⟩

/-- A round whose Provide call fails with a transport error. -/
def oPfail : RoundOracle :=
  ⟨.ok "cid", .error "boom", .ok (), fun _ => .ok respFix, fun _ => .ok ()⟩

/-! ## Agent-side theorems -/

lemma isEmptyPeerErr_iff (p : ProviderID) : isEmptyPeerErr p = true ↔ p.bytes = "" := by
  unfold isEmptyPeerErr validate
  by_cases h : p.bytes = "" <;> by_cases hv : p.validMultihash <;> simp [h, hv]

lemma dht_ne_ipni : RoutingDHT ≠ RoutingIPNI := by decide

/-- C10: a DHT retrieve whose provider channel closed without a result
(zero-value identity — the shape produced by deadline expiry or context
cancellation) is classified "not found", carries the elapsed duration,
and is returned on the normal protocol path, never as a deadline error. -/
theorem C10_closed_channel_not_found (c : String) (rt : Int) (t0 t1 : Nat)
    (idxO : IndexerOracle) (st : HostState) :
    retrieveHandler false (some RoutingDHT) (some c) rt ⟨zeroProviderID, t0, t1⟩ idxO st =
      .ok ⟨c, (t1 : Int) - (t0 : Int), rt, "not found"⟩ st := by
  simp [retrieveHandler, retrieveSwitch, if_neg dht_ne_ipni, retrieveDHT,
    isEmptyPeerErr, validate, zeroProviderID]

/-- C3 counterexample: a non-empty provider identity that is not a valid
multihash ("invalid") is not classified "not found": `Validate` yields a
parse error, `errors.Is(·, ErrEmptyPeerID)` is false, and the handler
takes the found branch leaving the error field empty. -/
theorem C3_counterexample :
    validate ⟨"zz", false⟩ = ValidateErr.parseErr ∧
    (retrieveDHT "c1" 7 ⟨⟨"zz", false⟩, 0, 5⟩ st0).1.Error = "" := by decide

/-- C3 (amended): a DHT retrieve whose returned provider identity is
empty is classified "not found": the response goes out on the normal
protocol path with the measured duration, the error field is "not found"
(hence non-empty), and the duration is non-negative under clock
monotonicity.  (A non-empty identity — valid multihash or not — is
treated as found.) -/
theorem C3_empty_identity_not_found (c : String) (rt : Int) (o : DHTOracle)
    (idxO : IndexerOracle) (st : HostState)
    (hempty : o.provider.bytes = "") (hmono : o.t0 ≤ o.t1) :
    ∃ resp, retrieveHandler false (some RoutingDHT) (some c) rt o idxO st = .ok resp st ∧
      resp.Error = "not found" ∧ resp.Error ≠ "" ∧
      resp.Duration = (o.t1 : Int) - (o.t0 : Int) ∧ 0 ≤ resp.Duration := by
  refine ⟨⟨c, (o.t1 : Int) - (o.t0 : Int), rt, "not found"⟩, ?_, rfl, by simp, rfl, ?_⟩
  · simp [retrieveHandler, retrieveSwitch, if_neg dht_ne_ipni, retrieveDHT,
      isEmptyPeerErr, validate, hempty]
  · show (0 : Int) ≤ (o.t1 : Int) - (o.t0 : Int)
    omega

theorem C3_empty_identity_not_found_witness :
    (⟨"", false⟩ : ProviderID).bytes = "" ∧ (0 : Nat) ≤ 5 ∧
    ∃ resp, retrieveHandler false (some RoutingDHT) (some "c1") 7 ⟨⟨"", false⟩, 0, 5⟩ idx0 st0 =
        .ok resp st0 ∧
      resp.Error = "not found" ∧ resp.Error ≠ "" ∧
      resp.Duration = ((5 : Nat) : Int) - ((0 : Nat) : Int) ∧ 0 ≤ resp.Duration :=
  ⟨rfl, by decide, C3_empty_identity_not_found "c1" 7 ⟨⟨"", false⟩, 0, 5⟩ idx0 st0 rfl (by decide)⟩

/-- C4: an Indexer retrieve records a lookup failure's error string as the
outcome's error, classifies an empty result set "not found", and in every
case returns a response carrying the measured duration on the normal
protocol path (never as an HTTP/protocol error). -/
theorem C4_indexer_outcomes (c : String) (rt : Int) (dhtO : DHTOracle)
    (st : HostState) (o : IndexerOracle) :
    (∀ e, o.result = .error e →
        retrieveHandler false (some RoutingIPNI) (some c) rt dhtO o st =
          .ok ⟨c, (o.t1 : Int) - (o.t0 : Int), rt, e⟩ st) ∧
    (o.result = .ok [] →
        retrieveHandler false (some RoutingIPNI) (some c) rt dhtO o st =
          .ok ⟨c, (o.t1 : Int) - (o.t0 : Int), rt, "not found"⟩ st) ∧
    (∃ resp, retrieveHandler false (some RoutingIPNI) (some c) rt dhtO o st =
        .ok resp st ∧ resp.Duration = (o.t1 : Int) - (o.t0 : Int)) := by
  refine ⟨?_, ?_, ?_⟩
  · intro e he
    simp [retrieveHandler, retrieveSwitch, retrieveIndexer, he]
  · intro he
    simp [retrieveHandler, retrieveSwitch, retrieveIndexer, he]
  · match hres : o.result with
    | .error e =>
        exact ⟨⟨c, (o.t1 : Int) - (o.t0 : Int), rt, e⟩, by
          simp [retrieveHandler, retrieveSwitch, retrieveIndexer, hres], rfl⟩
    | .ok rs =>
        exact ⟨⟨c, (o.t1 : Int) - (o.t0 : Int), rt,
            if rs.length = 0 then "not found" else ""⟩, by
          simp [retrieveHandler, retrieveSwitch, retrieveIndexer, hres], rfl⟩

theorem C4_indexer_outcomes_witness :
    retrieveHandler false (some RoutingIPNI) (some "c2") 3 dht0 ⟨.error "boom", 2, 7⟩ st0 =
      .ok ⟨"c2", ((7 : Nat) : Int) - ((2 : Nat) : Int), 3, "boom"⟩ st0 :=
  (C4_indexer_outcomes "c2" 3 dht0 st0 ⟨.error "boom", 2, 7⟩).1 "boom" rfl

/-- C9: any routing selector other than the Indexer tag — unknown, empty
or malformed — silently executes the DHT strategy: the handler behaves
exactly as with the DHT tag, and (given a well-formed request body and
cid) returns the DHT branch's response rather than any rejection. -/
theorem C9_unknown_selector_dht (routing : Routing) (hne : routing ≠ RoutingIPNI) :
    (∀ readErr cidRes rt dhtO idxO st,
        retrieveHandler readErr (some routing) cidRes rt dhtO idxO st =
          retrieveHandler readErr (some RoutingDHT) cidRes rt dhtO idxO st) ∧
    (∀ c rt dhtO idxO st,
        retrieveHandler false (some routing) (some c) rt dhtO idxO st =
          .ok (retrieveDHT c rt dhtO st).1 (retrieveDHT c rt dhtO st).2) := by
  constructor
  · intro readErr cidRes rt dhtO idxO st
    cases readErr <;> cases cidRes <;>
      simp [retrieveHandler, retrieveSwitch, if_neg hne, if_neg dht_ne_ipni]
  · intro c rt dhtO idxO st
    simp [retrieveHandler, retrieveSwitch, if_neg hne]

theorem C9_unknown_selector_dht_witness :
    ("bogus" : Routing) ≠ RoutingIPNI ∧
    retrieveHandler false (some "bogus") (some "c3") 0 dht0 idx0 st0 =
      retrieveHandler false (some RoutingDHT) (some "c3") 0 dht0 idx0 st0 :=
  ⟨by decide, (C9_unknown_selector_dht "bogus" (by decide)).1 false (some "c3") 0 dht0 idx0 st0⟩

/-- C8: a DHT retrieve that finds a provider (non-empty identity) leaves
the host state with the connection to that provider closed and the
provider absent from the peerstore and the address book, so a later
round cannot reuse the cached connection or address. -/
theorem C8_found_provider_cleanup (c : String) (rt : Int) (o : DHTOracle)
    (st : HostState) (hfound : o.provider.bytes ≠ "") :
    o.provider.bytes ∉ ((retrieveDHT c rt o st).2).conns ∧
    o.provider.bytes ∉ ((retrieveDHT c rt o st).2).peers ∧
    ∀ q ∈ ((retrieveDHT c rt o st).2).addrs, q.1 ≠ o.provider.bytes := by
  have hne : isEmptyPeerErr o.provider = false := by
    rw [← Bool.not_eq_true, isEmptyPeerErr_iff]
    exact hfound
  refine ⟨?_, ?_, ?_⟩ <;>
    simp [retrieveDHT, hne, clearAddrs, removePeer, closePeer, List.mem_filter]

theorem C8_found_provider_cleanup_witness :
    (⟨"peerA", true⟩ : ProviderID).bytes ≠ "" ∧
    ("peerA" ∉ ((retrieveDHT "c4" 2 ⟨⟨"peerA", true⟩, 1, 4⟩ st0).2).conns ∧
     "peerA" ∉ ((retrieveDHT "c4" 2 ⟨⟨"peerA", true⟩, 1, 4⟩ st0).2).peers ∧
     ∀ q ∈ ((retrieveDHT "c4" 2 ⟨⟨"peerA", true⟩, 1, 4⟩ st0).2).addrs, q.1 ≠ "peerA") :=
  ⟨by decide, C8_found_provider_cleanup "c4" 2 ⟨⟨"peerA", true⟩, 1, 4⟩ st0 (by decide)⟩

/-! ## Coordinator-side theorems -/

/-- C5: if the Provide call of a round fails, the loop terminates at once
with non-zero process status, performs zero Retrieve calls and persists
zero Retrieval Records; whenever the provider's node record exists (as in
every non-dry run) the termination is the returned wrapped error. -/
theorem C5_provide_failure_fatal (n prov : Nat) (dry : Bool)
    (dbNodes : List (Option Nat)) (o : RoundOracle) (cc e : String)
    (hc : o.content = .ok cc) (hp : o.provideRes = .error e) :
    (runRound n prov dry dbNodes o).exit.exitCode ≠ 0 ∧
    retrieveCallsOf (runRound n prov dry dbNodes o) = [] ∧
    (runRound n prov dry dbNodes o).retrievalRecords = 0 ∧
    (∀ q, (runRound n prov dry dbNodes o).exit ≠ .cont q) ∧
    (∀ nid, dbNodes.getD prov none = some nid →
        (runRound n prov dry dbNodes o).exit = .errReturn ("provide content: " ++ e)) := by
  rcases hd : dbNodes[prov]? with _ | (_ | nid) <;>
    simp [runRound, hc, hp, List.getD, hd, retrieveCallsOf, retrStartIdx, RoundExit.exitCode]

theorem C5_provide_failure_fatal_witness :
    oPfail.content = .ok "cid" ∧ oPfail.provideRes = .error "boom" ∧
    ((runRound 2 0 false (mkDbNodes false 2) oPfail).exit.exitCode ≠ 0 ∧
     retrieveCallsOf (runRound 2 0 false (mkDbNodes false 2) oPfail) = [] ∧
     (runRound 2 0 false (mkDbNodes false 2) oPfail).retrievalRecords = 0 ∧
     (∀ q, (runRound 2 0 false (mkDbNodes false 2) oPfail).exit ≠ .cont q) ∧
     (∀ nid, (mkDbNodes false 2).getD 0 none = some nid →
         (runRound 2 0 false (mkDbNodes false 2) oPfail).exit =
           .errReturn ("provide content: " ++ "boom"))) :=
  ⟨rfl, rfl, C5_provide_failure_fatal 2 0 false (mkDbNodes false 2) oPfail "cid" "boom" rfl rfl⟩

lemma trace_cons_cons (prov : Nat) (evs : List Event) (j i : Nat)
    (h : (Event.provideStart prov :: Event.provideDone prov :: evs).get? j =
      some (.retrieveStart i)) :
    ∃ k, k < j ∧ (Event.provideStart prov :: Event.provideDone prov :: evs).get? k =
      some (.provideDone prov) := by
  match j with
  | 0 => simp at h
  | 1 => simp at h
  | (j + 2) => exact ⟨1, by omega, rfl⟩

/-- C6: within a round, no Retrieve call starts before the Provide call's
response has been received: in the round's event trace every
`retrieveStart` is strictly preceded by the round's `provideDone`. -/
theorem C6_provide_before_retrievals (n prov : Nat) (dry : Bool)
    (dbNodes : List (Option Nat)) (o : RoundOracle) (j i : Nat)
    (h : ((runRound n prov dry dbNodes o).trace).get? j = some (.retrieveStart i)) :
    ∃ k, k < j ∧
      ((runRound n prov dry dbNodes o).trace).get? k = some (.provideDone prov) := by
  rcases hc : o.content with e | cc
  · simp [runRound, hc] at h
  rcases hp : o.provideRes with e | u
  · rcases hd : dbNodes[prov]? with _ | (_ | nid) <;>
      · simp [runRound, hc, hp, List.getD, hd] at h
        match j with
        | 0 => simp at h
        | (j + 1) => simp at h
  cases dry
  · rcases hip : o.insertProvideRes with e | u2
    · simp [runRound, hc, hp, hip] at h
      match j with
      | 0 => simp at h
      | 1 => simp at h
      | (j + 2) => simp at h
    · simp only [runRound, hc, hp, hip] at h ⊢
      exact trace_cons_cons prov _ j i h
  · simp only [runRound, hc, hp] at h ⊢
    exact trace_cons_cons prov _ j i h

theorem C6_provide_before_retrievals_witness :
    ((runRound 2 0 false (mkDbNodes false 2) oGood).trace).get? 2 =
        some (.retrieveStart 1) ∧
    ∃ k, k < 2 ∧ ((runRound 2 0 false (mkDbNodes false 2) oGood).trace).get? k =
        some (.provideDone 0) :=
  ⟨by decide, C6_provide_before_retrievals 2 0 false (mkDbNodes false 2) oGood 2 1 (by decide)⟩

lemma runRound_cont (n prov : Nat) (dry : Bool) (dbNodes : List (Option Nat))
    (o : RoundOracle) (q : Nat)
    (h : (runRound n prov dry dbNodes o).exit = .cont q) : q = (prov + 1) % n := by
  rcases hc : o.content with e | cc
  · simp [runRound, hc] at h
  rcases hp : o.provideRes with e | u
  · rcases hd : dbNodes[prov]? with _ | (_ | nid) <;>
      simp [runRound, hc, hp, List.getD, hd] at h
  cases dry
  · rcases hip : o.insertProvideRes with e | u2
    · simp [runRound, hc, hp, hip] at h
    · simp only [runRound, hc, hp, hip] at h
      rcases hfe : (retrLoop n prov true o (List.range (n - 1))).firstErr with _ | e <;>
        simp [exitOfRetr, hfe] at h
      omega
  · simp only [runRound, hc, hp] at h
    rcases hfe : (retrLoop n prov false o (List.range (n - 1))).firstErr with _ | e <;>
      simp [exitOfRetr, hfe] at h
    omega

lemma runLoop_provs (n : Nat) (hn : 0 < n) (dry : Bool) (dbNodes : List (Option Nat)) :
    ∀ (os : List RoundOracle) (prov : Nat), prov < n →
      ∀ (i p : Nat), ((runLoop n dry dbNodes prov os).1).get? i = some p →
        p = (prov + i) % n := by
  intro os
  induction os with
  | nil => intro prov _ i p h; simp [runLoop] at h
  | cons o os ih =>
    intro prov hprov i p h
    rcases hex : (runRound n prov dry dbNodes o).exit with next | m | _ <;>
      simp only [runLoop, hex] at h
    · match i with
      | 0 =>
        simp at h
        subst h
        simp [Nat.mod_eq_of_lt hprov]
      | (i + 1) =>
        simp only [List.get?_cons_succ] at h
        have hnext := runRound_cont n prov dry dbNodes o next hex
        subst hnext
        have := ih ((prov + 1) % n) (Nat.mod_lt _ hn) i p h
        rw [this, Nat.mod_add_mod]
        congr 1
        omega
    · simp at h
    · simp at h

/-- C2: in every run the provider index starts at 0 and advances
circularly, `next = (current + 1) mod fleetSize`, after each completed
round; so for fleet size n ≥ 1 the index used in completed round N is
N mod n, always in range [0, n). -/
theorem C2_provider_index_round_robin (n : Nat) (hn : 1 ≤ n) (dry : Bool)
    (dbNodes : List (Option Nat)) (os : List RoundOracle) :
    (∀ prov o q, (runRound n prov dry dbNodes o).exit = .cont q → q = (prov + 1) % n) ∧
    (∀ i p, ((runLoop n dry dbNodes 0 os).1).get? i = some p → p = i % n ∧ p < n) := by
  constructor
  · intro prov o q h
    exact runRound_cont n prov dry dbNodes o q h
  · intro i p h
    have := runLoop_provs n hn dry dbNodes os 0 hn i p h
    simp at this
    exact ⟨this, this ▸ Nat.mod_lt _ hn⟩

theorem C2_provider_index_round_robin_witness :
    (1 ≤ 2 ∧
      ((runLoop 2 false (mkDbNodes false 2) 0 [oGood, oGood]).1).get? 1 = some 1) ∧
    (1 = 1 % 2 ∧ 1 < 2) :=
  ⟨⟨by decide, by decide⟩,
    (C2_provider_index_round_robin 2 (by decide) false (mkDbNodes false 2)
      [oGood, oGood]).2 1 1 (by decide)⟩

lemma retrLoop_ok_shape (n prov : Nat) (dbc : Bool) (o : RoundOracle) :
    ∀ l : List Nat, (retrLoop n prov dbc o l).firstErr = none →
      (retrLoop n prov dbc o l).evs.filterMap retrStartIdx =
        l.map (fun i => (prov + i + 1) % n) ∧
      (retrLoop n prov dbc o l).records = if dbc then l.length else 0 := by
  intro l
  induction l with
  | nil => intro _; simp [retrLoop]
  | cons i rest ih =>
    intro hfe
    rcases hr : o.retrieveRes ((prov + i + 1) % n) with e | r
    · simp [retrLoop, hr] at hfe
    cases dbc
    · simp only [retrLoop, hr, Bool.false_eq_true, if_false] at hfe ⊢
      obtain ⟨h1, h2⟩ := ih hfe
      simp [List.filterMap, retrStartIdx, h1, h2]
    · rcases hins : o.insertRetrievalRes ((prov + i + 1) % n) with e | u
      · simp [retrLoop, hr, hins] at hfe
      · simp only [retrLoop, hr, hins, if_true] at hfe ⊢
        obtain ⟨h1, h2⟩ := ih hfe
        simp [List.filterMap, retrStartIdx, h1, h2]
        omega

lemma retrLoop_no_provide (n prov : Nat) (dbc : Bool) (o : RoundOracle) :
    ∀ l, (retrLoop n prov dbc o l).evs.filterMap provStartIdx = [] := by
  intro l
  induction l with
  | nil => simp [retrLoop]
  | cons i rest ih =>
    rcases hr : o.retrieveRes ((prov + i + 1) % n) with e | r
    · simp [retrLoop, hr, provStartIdx]
    cases dbc
    · simp [retrLoop, hr, provStartIdx, ih]
    · rcases hins : o.insertRetrievalRes ((prov + i + 1) % n) with e | u
      · simp [retrLoop, hr, hins, provStartIdx]
      · simp [retrLoop, hr, hins, provStartIdx, ih]

lemma roundRobin_nodup (n prov : Nat) (hp : prov < n) :
    ((List.range (n - 1)).map (fun i => (prov + i + 1) % n)).Nodup := by
  refine List.Nodup.map_on ?_ (List.nodup_range _)
  intro x hx y hy hxy
  simp only [List.mem_range] at hx hy
  have h1 : prov + 1 + x ≡ prov + 1 + y [MOD n] := by
    show (prov + 1 + x) % n = (prov + 1 + y) % n
    have e1 : prov + 1 + x = prov + x + 1 := by omega
    have e2 : prov + 1 + y = prov + y + 1 := by omega
    rw [e1, e2]
    exact hxy
  have h2 : x ≡ y [MOD n] := Nat.ModEq.add_left_cancel' (prov + 1) h1
  have h3 : x % n = y % n := h2
  rw [Nat.mod_eq_of_lt (by omega), Nat.mod_eq_of_lt (by omega)] at h3
  exact h3

lemma roundRobin_toFinset (n prov : Nat) (hp : prov < n) :
    ((List.range (n - 1)).map (fun i => (prov + i + 1) % n)).toFinset =
      (Finset.range n).erase prov := by
  have hn : 0 < n := by omega
  apply Finset.eq_of_subset_of_card_le
  · intro x hx
    simp only [List.mem_toFinset, List.mem_map, List.mem_range] at hx
    obtain ⟨i, hi, rfl⟩ := hx
    simp only [Finset.mem_erase, Finset.mem_range]
    refine ⟨?_, Nat.mod_lt _ hn⟩
    intro hcontra
    have h2 : prov + (i + 1) ≡ prov + 0 [MOD n] := by
      show (prov + (i + 1)) % n = (prov + 0) % n
      have e1 : prov + (i + 1) = prov + i + 1 := by omega
      have e2 : prov + 0 = prov := by omega
      rw [e1, e2, hcontra, Nat.mod_eq_of_lt hp]
    have h3 : i + 1 ≡ 0 [MOD n] := Nat.ModEq.add_left_cancel' prov h2
    have h4 : n ∣ i + 1 := Nat.modEq_zero_iff_dvd.mp h3
    have h5 := Nat.le_of_dvd (by omega) h4
    omega
  · rw [Finset.card_erase_of_mem (Finset.mem_range.mpr hp),
      List.toFinset_card_of_nodup (roundRobin_nodup n prov hp)]
    simp

/-- C1: every completed (non-dry) round performs exactly one Provide, on
the node at the current provider index, and exactly one Retrieve on each
of the other n−1 nodes — the retrieval indices (provNode+i+1) mod n for
0 ≤ i ≤ n−2 are pairwise distinct and cover every fleet index except the
provider — persisting exactly 1 Provide Record and n−1 Retrieval Records. -/
theorem C1_round_provides_and_retrieves (n prov : Nat) (hn : 2 ≤ n) (hp : prov < n)
    (dbNodes : List (Option Nat)) (o : RoundOracle) (q : Nat)
    (hdone : (runRound n prov false dbNodes o).exit = .cont q) :
    provideCallsOf (runRound n prov false dbNodes o) = [prov] ∧
    retrieveCallsOf (runRound n prov false dbNodes o) =
      (List.range (n - 1)).map (fun i => (prov + i + 1) % n) ∧
    (retrieveCallsOf (runRound n prov false dbNodes o)).Nodup ∧
    (retrieveCallsOf (runRound n prov false dbNodes o)).toFinset =
      (Finset.range n).erase prov ∧
    (retrieveCallsOf (runRound n prov false dbNodes o)).length = n - 1 ∧
    (runRound n prov false dbNodes o).provideRecords = 1 ∧
    (runRound n prov false dbNodes o).retrievalRecords = n - 1 := by
  rcases hc : o.content with e | cc
  · simp [runRound, hc] at hdone
  rcases hpr : o.provideRes with e | u
  · rcases hd : dbNodes[prov]? with _ | (_ | nid) <;>
      simp [runRound, hc, hpr, List.getD, hd] at hdone
  rcases hip : o.insertProvideRes with e | u2
  · simp [runRound, hc, hpr, hip] at hdone
  have hfe : (retrLoop n prov true o (List.range (n - 1))).firstErr = none := by
    rcases hfe : (retrLoop n prov true o (List.range (n - 1))).firstErr with _ | e
    · rfl
    · simp [runRound, hc, hpr, hip, exitOfRetr, hfe] at hdone
  obtain ⟨hmap, hrec⟩ := retrLoop_ok_shape n prov true o (List.range (n - 1)) hfe
  have hnop := retrLoop_no_provide n prov true o (List.range (n - 1))
  have htrace : (runRound n prov false dbNodes o).trace =
      .provideStart prov :: .provideDone prov ::
        (retrLoop n prov true o (List.range (n - 1))).evs := by
    simp [runRound, hc, hpr, hip]
  have hretr : retrieveCallsOf (runRound n prov false dbNodes o) =
      (List.range (n - 1)).map (fun i => (prov + i + 1) % n) := by
    rw [retrieveCallsOf, htrace]
    simp only [List.filterMap_cons]
    simpa [retrStartIdx] using hmap
  refine ⟨?_, hretr, ?_, ?_, ?_, ?_, ?_⟩
  · rw [provideCallsOf, htrace]
    simp only [List.filterMap_cons]
    simpa [provStartIdx] using hnop
  · rw [hretr]; exact roundRobin_nodup n prov hp
  · rw [hretr]; exact roundRobin_toFinset n prov hp
  · rw [hretr]; simp
  · simp [runRound, hc, hpr, hip]
  · simp only [runRound, hc, hpr, hip]
    simpa using hrec

theorem C1_round_provides_and_retrieves_witness :
    (2 ≤ 3 ∧ 0 < 3 ∧ (runRound 3 0 false (mkDbNodes false 3) oGood).exit = .cont 1) ∧
    (provideCallsOf (runRound 3 0 false (mkDbNodes false 3) oGood) = [0] ∧
     retrieveCallsOf (runRound 3 0 false (mkDbNodes false 3) oGood) =
       (List.range (3 - 1)).map (fun i => (0 + i + 1) % 3) ∧
     (retrieveCallsOf (runRound 3 0 false (mkDbNodes false 3) oGood)).Nodup ∧
     (retrieveCallsOf (runRound 3 0 false (mkDbNodes false 3) oGood)).toFinset =
       (Finset.range 3).erase 0 ∧
     (retrieveCallsOf (runRound 3 0 false (mkDbNodes false 3) oGood)).length = 3 - 1 ∧
     (runRound 3 0 false (mkDbNodes false 3) oGood).provideRecords = 1 ∧
     (runRound 3 0 false (mkDbNodes false 3) oGood).retrievalRecords = 3 - 1) :=
  ⟨⟨by decide, by decide, by decide⟩,
    C1_round_provides_and_retrieves 3 0 (by decide) (by decide)
      (mkDbNodes false 3) oGood 1 (by decide)⟩

lemma retrLoop_persist_dry (n prov : Nat) (o : RoundOracle) :
    ∀ l, (retrLoop n prov false o l).persistCalls = 0 := by
  intro l
  induction l with
  | nil => simp [retrLoop]
  | cons i rest ih =>
    rcases hr : o.retrieveRes ((prov + i + 1) % n) with e | r <;>
      simp [retrLoop, hr, ih]

lemma runRound_dry_persist (n prov : Nat) (dbNodes : List (Option Nat))
    (o : RoundOracle) : (runRound n prov true dbNodes o).persistCalls = 0 := by
  rcases hc : o.content with e | cc
  · simp [runRound, hc]
  rcases hpr : o.provideRes with e | u
  · rcases hd : dbNodes[prov]? with _ | (_ | nid) <;>
      simp [runRound, hc, hpr, List.getD, hd]
  · simp [runRound, hc, hpr, retrLoop_persist_dry]

lemma runLoop_dry_persist (n : Nat) (dbNodes : List (Option Nat)) :
    ∀ (os : List RoundOracle) (prov : Nat),
      (runLoop n true dbNodes prov os).2.1 = 0 := by
  intro os
  induction os with
  | nil => intro prov; simp [runLoop]
  | cons o os ih =>
    intro prov
    rcases hex : (runRound n prov true dbNodes o).exit with next | m | _ <;>
      simp [runLoop, hex, runRound_dry_persist, ih]

lemma retrLoop_insert_ok (n prov : Nat) (o : RoundOracle)
    (hir : ∀ i, o.insertRetrievalRes i = .ok ()) :
    ∀ l, (retrLoop n prov true o l).evs = (retrLoop n prov false o l).evs ∧
      (retrLoop n prov true o l).firstErr = (retrLoop n prov false o l).firstErr := by
  intro l
  induction l with
  | nil => simp [retrLoop]
  | cons i rest ih =>
    rcases hr : o.retrieveRes ((prov + i + 1) % n) with e | r
    · simp [retrLoop, hr]
    · simp [retrLoop, hr, hir ((prov + i + 1) % n), ih.1, ih.2]

lemma runRound_dry_wet (n prov : Nat) (o : RoundOracle)
    (hip : o.insertProvideRes = .ok ())
    (hir : ∀ i, o.insertRetrievalRes i = .ok ())
    (hnp : ∀ cc e, o.content = .ok cc → o.provideRes ≠ .error e) :
    (runRound n prov true (mkDbNodes true n) o).exit =
      (runRound n prov false (mkDbNodes false n) o).exit ∧
    (runRound n prov true (mkDbNodes true n) o).trace =
      (runRound n prov false (mkDbNodes false n) o).trace := by
  rcases hc : o.content with e | cc
  · simp [runRound, hc]
  rcases hpr : o.provideRes with e | u
  · exact absurd hpr (hnp cc e hc)
  obtain ⟨h1, h2⟩ := retrLoop_insert_ok n prov o hir (List.range (n - 1))
  constructor <;> simp [runRound, hc, hpr, hip, h1, h2]

lemma runLoop_dry_wet (n : Nat) :
    ∀ (os : List RoundOracle) (prov : Nat),
      (∀ o ∈ os, o.insertProvideRes = .ok ()) →
      (∀ o ∈ os, ∀ i, o.insertRetrievalRes i = .ok ()) →
      (∀ o ∈ os, ∀ cc e, o.content = .ok cc → o.provideRes ≠ .error e) →
      (runLoop n true (mkDbNodes true n) prov os).1 =
        (runLoop n false (mkDbNodes false n) prov os).1 ∧
      (runLoop n true (mkDbNodes true n) prov os).2.2 =
        (runLoop n false (mkDbNodes false n) prov os).2.2 := by
  intro os
  induction os with
  | nil => intro prov _ _ _; simp [runLoop]
  | cons o os ih =>
    intro prov hip hir hnp
    obtain ⟨hex, -⟩ := runRound_dry_wet n prov o (hip o (by simp)) (hir o (by simp))
      (hnp o (by simp))
    rcases hexw : (runRound n prov false (mkDbNodes false n) o).exit with next | m | _ <;>
      rw [hexw] at hex
    · have htail := ih next (fun o' ho' => hip o' (List.mem_cons_of_mem _ ho'))
        (fun o' ho' => hir o' (List.mem_cons_of_mem _ ho'))
        (fun o' ho' => hnp o' (List.mem_cons_of_mem _ ho'))
      simp only [runLoop, hex, hexw]
      exact ⟨by rw [htail.1], htail.2⟩
    · simp [runLoop, hex, hexw]
    · simp [runLoop, hex, hexw]

/-- C7 counterexample: with a fleet of 2 and a round whose Provide call
fails, the dry run panics (the failure log dereferences the nil node
record), while the non-dry run returns the wrapped error — so error
propagation is not identical to a non-dry run. -/
theorem C7_counterexample :
    (runRound 2 0 true (mkDbNodes true 2) oPfail).exit = .panicked ∧
    (runRound 2 0 false (mkDbNodes false 2) oPfail).exit =
      .errReturn ("provide content: " ++ "boom") ∧
    (runRound 2 0 true (mkDbNodes true 2) oPfail).exit ≠
      (runRound 2 0 false (mkDbNodes false 2) oPfail).exit := by
  refine ⟨by decide, by decide, by decide⟩

/-- C7 (amended): with dry-run enabled the Coordinator issues zero
persistence calls over the entire execution; provided every persistence
call of the corresponding non-dry run succeeds and no round's Provide
call fails, the loop's behaviour (completed rounds, provider indices,
exit) is identical to the non-dry run.  (When a Provide call fails, the
dry run panics on the nil node record instead of returning the error.) -/
theorem C7_dry_run_no_persistence (n : Nat) (os : List RoundOracle)
    (hip : ∀ o ∈ os, o.insertProvideRes = .ok ())
    (hir : ∀ o ∈ os, ∀ i, o.insertRetrievalRes i = .ok ())
    (hnp : ∀ o ∈ os, ∀ cc e, o.content = .ok cc → o.provideRes ≠ .error e) :
    (runSched n true os).1 = 0 ∧
    (runSched n true os).2.1 = (runSched n false os).2.1 ∧
    (runSched n true os).2.2 = (runSched n false os).2.2 := by
  obtain ⟨h1, h2⟩ := runLoop_dry_wet n os 0 hip hir hnp
  refine ⟨?_, ?_, ?_⟩
  · simp [runSched, runLoop_dry_persist]
  · simpa [runSched] using h1
  · simpa [runSched] using h2

theorem C7_dry_run_no_persistence_witness :
    ((∀ o ∈ [oGood], o.insertProvideRes = Except.ok ()) ∧
     (∀ o ∈ [oGood], ∀ i, o.insertRetrievalRes i = Except.ok ()) ∧
     (∀ o ∈ [oGood], ∀ cc e, o.content = Except.ok cc → o.provideRes ≠ .error e)) ∧
    ((runSched 3 true [oGood]).1 = 0 ∧
     (runSched 3 true [oGood]).2.1 = (runSched 3 false [oGood]).2.1 ∧
     (runSched 3 true [oGood]).2.2 = (runSched 3 false [oGood]).2.2) := by
  have hip : ∀ o ∈ [oGood], o.insertProvideRes = Except.ok () := by
    intro o ho; simp at ho; subst ho; rfl
  have hir : ∀ o ∈ [oGood], ∀ i, o.insertRetrievalRes i = Except.ok () := by
    intro o ho i; simp at ho; subst ho; rfl
  have hnp : ∀ o ∈ [oGood], ∀ cc e, o.content = Except.ok cc →
      o.provideRes ≠ .error e := by
    intro o ho cc e hcc; simp at ho; subst ho; simp [oGood]
  exact ⟨⟨hip, hir, hnp⟩, C7_dry_run_no_persistence 3 [oGood] hip hir hnp⟩

end Parsec
